import Mathlib

/-!
Verification of the stream-to-relational-model compiler in
`airbyte-integrations/bases/base-normalization/normalization/transform_catalog/stream_processor.py`.

Modelling conventions: Python dictionaries are insertion-ordered association
lists; Python exceptions are `Except String`; the mutable `table_context` set
is an explicitly threaded list of names.  The external
`DestinationNameTransformer` collaborator is a record of two
identifier-normalization functions, and the type predicates imported from
`normalization.transform_catalog.utils` (whose source is not part of this
tree) are modelled from the specification.
-/

/-- JSON values as parsed from the stream catalog (Json Schema fragments).
Objects keep their fields as insertion-ordered association lists. -/
inductive JValue where
  | null
  | bool (b : Bool)
  | num (n : Int)
  | str (s : String)
  | arr (items : List JValue)
  | obj (fields : List (String × JValue))

mutual

/-- Structural equality test on Json values. -/
def JValue.beq : JValue → JValue → Bool
  | .null, .null => true
  | .bool a, .bool b => a == b
  | .num a, .num b => a == b
  | .str a, .str b => a == b
  | .arr a, .arr b => JValue.beqList a b
  | .obj a, .obj b => JValue.beqFields a b
  | _, _ => false

/-- Structural equality test on lists of Json values. -/
def JValue.beqList : List JValue → List JValue → Bool
  | [], [] => true
  | x :: xs, y :: ys => JValue.beq x y && JValue.beqList xs ys
  | _, _ => false

/-- Structural equality test on ordered Json dictionaries. -/
def JValue.beqFields : List (String × JValue) → List (String × JValue) → Bool
  | [], [] => true
  | x :: xs, y :: ys => x.1 == y.1 && JValue.beq x.2 y.2 && JValue.beqFields xs ys
  | _, _ => false

end

instance : BEq JValue := ⟨JValue.beq⟩

/-- Python `d[key]` / `key in d` on an ordered dictionary: first entry with the
given key, if any. -/
def getKeyL : List (String × JValue) → String → Option JValue
  | [], _ => none
  | kv :: rest, key => if kv.1 == key then some kv.2 else getKeyL rest key

/-- Python `key in j` / `j[key]` for a Json value that is expected to be a
dictionary (non-dictionaries have no keys). -/
def getKey : JValue → String → Option JValue
  | .obj l, key => getKeyL l key
  | _, _ => none

/-- Python `key in j` for a dictionary-shaped Json value. -/
def hasKey (j : JValue) (key : String) : Bool :=
  (getKey j key).isSome

/-- Python truthiness of a Json value (`if not self.properties`). -/
def jTruthy : JValue → Bool
  | .null => false
  | .bool b => b
  | .num n => n != 0
  | .str s => s != ""
  | .arr l => !l.isEmpty
  | .obj l => !l.isEmpty

/-- Python `d[k] = v` on an ordered dictionary: overwrite in place when `k`
exists, else append. -/
def dict_set (d : List (String × Option JValue)) (k : String) (v : Option JValue) :
    List (String × Option JValue) :=
  if d.any (fun kv => kv.1 == k) then
    d.map (fun kv => if kv.1 == k then (k, v) else kv)
  else d ++ [(k, v)]

/-- Python `result.update(child)` on ordered dictionaries. -/
def dict_update (d child : List (String × Option JValue)) :
    List (String × Option JValue) :=
  child.foldl (fun acc kv => dict_set acc kv.1 kv.2) d

/-- Modelled from the spec: internal metadata fields carry a reserved naming
prefix, `_airbyte_` (`is_airbyte_column` from
`normalization.transform_catalog.utils`, a module absent from this tree). -/
def is_airbyte_column (name : String) : Bool :=
  ("_airbyte_").data.isPrefixOf name.data

/-- Modelled from the spec: a declared Json Schema `type` names a kind either
directly or inside a list of type names (the `utils` type predicates, absent
from this tree; the spec's scalar kinds are string, integer, number,
boolean, with object and array kinds besides). -/
def declares_type (ty : JValue) (kind : String) : Bool :=
  match ty with
  | .str s => s == kind
  | .arr l => l.any (fun v => v == JValue.str kind)
  | _ => false

/-- Modelled from the spec: string scalar kind (`utils.is_string`). -/
def is_string (ty : JValue) : Bool := declares_type ty ("string")

/-- Modelled from the spec: integer scalar kind (`utils.is_integer`). -/
def is_integer (ty : JValue) : Bool := declares_type ty ("integer")

/-- Modelled from the spec: number scalar kind (`utils.is_number`). -/
def is_number (ty : JValue) : Bool := declares_type ty ("number")

/-- Modelled from the spec: boolean scalar kind (`utils.is_boolean`). -/
def is_boolean (ty : JValue) : Bool := declares_type ty ("boolean")

/-- Modelled from the spec: array kind (`utils.is_array`). -/
def is_array (ty : JValue) : Bool := declares_type ty ("array")

/-- Modelled from the spec: object kind (`utils.is_object`). -/
def is_object (ty : JValue) : Bool := declares_type ty ("object")

/-- Modelled from the spec: a recognized leaf scalar kind
(`utils.is_simple_property`). -/
def is_simple_property (ty : JValue) : Bool :=
  is_string ty || is_integer ty || is_number ty || is_boolean ty

/-- Modelled from the spec: schema-composition construct detection
(`utils.is_combining_node`): the definition carries a `oneOf`/`anyOf`/`allOf`
member. -/
def is_combining_node (definition : JValue) : Bool :=
  match definition with
  | .obj l => l.any (fun kv => kv.1 == "anyOf" || kv.1 == "oneOf" || kv.1 == "allOf")
  | .arr l => l.any (fun v =>
      v == JValue.str ("anyOf") || v == JValue.str ("oneOf") || v == JValue.str ("allOf"))
  | _ => false

/-- Modelled from the spec: `utils.jinja_call` wraps a macro call in Jinja
delimiters. -/
def jinja_call (command : String) : String :=
  "\x7b\x7b " ++ command ++ " \x7d\x7d"

/-- Interface of the external `DestinationNameTransformer` collaborator
(`normalize_table_name`, `normalize_column_name(name, in_jinja)`); the
compiler core is dialect-agnostic, so it is a parameter throughout. -/
structure NameTransformer where
  normalizeTableName : String → String
  normalizeColumnName : String → Bool → String

/-- A trivial name transformer used to evaluate the development on concrete
inputs. -/
def idNT : NameTransformer :=
  { normalizeTableName := fun s => s
    normalizeColumnName := fun s _ => s }

/-- Looking a key up in an ordered dictionary yields a structurally smaller
value. -/
theorem sizeOf_getKeyL : ∀ (l : List (String × JValue)) (key : String) (v : JValue),
    getKeyL l key = some v → sizeOf v < sizeOf l := by
  intro l key v h
  induction l with
  | nil => simp [getKeyL] at h
  | cons kv rest ih =>
    obtain ⟨k, w⟩ := kv
    rw [getKeyL] at h
    by_cases hk : (k == key) = true
    · simp only [hk, if_true] at h
      obtain rfl : w = v := Option.some.inj h
      simp only [List.cons.sizeOf_spec, Prod.mk.sizeOf_spec]
      omega
    · simp only [hk, if_false] at h
      have := ih h
      simp only [List.cons.sizeOf_spec]
      omega

mutual

/-- Embedding of the module-level `find_properties_object(path, field,
properties)`: walks wrapper levels (`items`), stops at a `properties` map or a
recognized leaf scalar, and otherwise recurses into every member of a
dictionary or list, merging the results.  Python `TypeError`s (indexing a
list or `None` with a string key) are modelled as `Except.error`. -/
def find_properties_object (path : List String) (field : String)
    (properties : JValue) : Except String (List (String × Option JValue)) :=
  let current_path := path ++ [field]
  let current := String.intercalate ("_") current_path
  match properties with
  | .str _ => .ok []
  | .bool _ => .ok []
  | .num _ => .ok []
  | .null => .error ("TypeError: argument of type NoneType is not iterable")
  | .obj l =>
    match h : getKeyL l ("items") with
    | some items => find_properties_object path field items
    | none =>
      match getKeyL l ("properties") with
      | some props => .ok [(current, some props)]
      | none =>
        match getKeyL l ("type") with
        | some ty =>
          if is_simple_property ty then .ok [(current, none)]
          else fpo_fold_obj current_path l []
        | none => fpo_fold_obj current_path l []
  | .arr l =>
    if l.any (fun v => v == JValue.str ("items")) then
      .error ("TypeError: list indices must be integers")
    else if l.any (fun v => v == JValue.str ("properties")) then
      .error ("TypeError: list indices must be integers")
    else if l.any (fun v => v == JValue.str ("type")) then
      .error ("TypeError: list indices must be integers")
    else fpo_fold_arr current_path field l []
termination_by sizeOf properties
decreasing_by
  all_goals simp_wf
  all_goals try (simp <;> omega)
  all_goals exact Nat.lt_of_lt_of_le (sizeOf_getKeyL l ("items") items h) (by simp <;> omega)

/-- The `isinstance(properties, dict)` branch of `find_properties_object`:
recurse into every `(key, value)` member under the extended path and merge
non-empty results into the accumulated dictionary. -/
def fpo_fold_obj (current_path : List String)
    (entries : List (String × JValue)) (acc : List (String × Option JValue)) :
    Except String (List (String × Option JValue)) :=
  match entries with
  | [] => .ok acc
  | kv :: rest =>
    match find_properties_object current_path kv.1 kv.2 with
    | .error e => .error e
    | .ok child =>
      fpo_fold_obj current_path rest (if child.isEmpty then acc else dict_update acc child)
termination_by sizeOf entries
decreasing_by
  all_goals simp_wf
  all_goals try (rcases kv with ⟨k, w⟩)
  all_goals simp <;> omega

/-- The `isinstance(properties, list)` branch of `find_properties_object`:
recurse into every item (same `field`) under the extended path and merge
non-empty results. -/
def fpo_fold_arr (current_path : List String) (field : String)
    (items : List JValue) (acc : List (String × Option JValue)) :
    Except String (List (String × Option JValue)) :=
  match items with
  | [] => .ok acc
  | item :: rest =>
    match find_properties_object current_path field item with
    | .error e => .error e
    | .ok child =>
      fpo_fold_arr current_path field rest (if child.isEmpty then acc else dict_update acc child)
termination_by sizeOf items
decreasing_by
  all_goals simp_wf
  all_goals try simp
  all_goals omega

end

/-- Per-node state of a `StreamProcessor`.  Only fields consulted by the
compilation logic are carried: `output_directory` and `integration_type` serve
only file placement and unimplemented BigQuery TODO stubs.  `parent` stores
the parent's `stream_name`, the single attribute of the parent object the
source reads (`parent.hash_id()` and the unnesting helpers derive from it);
`properties` is `none` when the Python value is `None` (a leaf marker). -/
structure StreamProcessor where
  stream_name : String
  raw_schema : String
  schema : String
  json_column_name : String
  properties : Option JValue
  parent : Option String
  is_nested_array : Bool
  json_path : List String

/-- `StreamProcessor.init`: root-node construction (no parent,
`json_path = [stream_name]`). -/
def StreamProcessor.init (stream_name raw_schema schema json_column_name : String)
    (properties : Option JValue) : StreamProcessor :=
  { stream_name, raw_schema, schema, json_column_name, properties,
    parent := none, is_nested_array := false, json_path := [stream_name] }

/-- `StreamProcessor.initFromParent`: child-node construction, inheriting the
parent's schemas and extending its json path. -/
def StreamProcessor.initFromParent (parent : StreamProcessor)
    (child_name json_column_name : String) (properties : Option JValue)
    (is_nested_array : Bool) : StreamProcessor :=
  { stream_name := child_name
    raw_schema := parent.raw_schema
    schema := parent.schema
    json_column_name := json_column_name
    properties := properties
    parent := some parent.stream_name
    is_nested_array := is_nested_array
    json_path := parent.json_path ++ [child_name] }

/-- Python truthiness of `self.properties` (`None` and the empty dictionary
are falsy: the `if not self.properties` guard of `process`). -/
def propsTruthy : Option JValue → Bool
  | none => false
  | some j => jTruthy j

/-- The `(field, definition)` entries of `self.properties`.  Iterating callers
run only behind the truthiness guard, where the value is a Json dictionary (a
truthy non-dictionary would raise in Python before any entry is read). -/
def propEntries : Option JValue → List (String × JValue)
  | some (.obj l) => l
  | _ => []

/-- `StreamProcessor.table_name`: the dialect-normalized stream name. -/
def StreamProcessor.table_name (nt : NameTransformer) (p : StreamProcessor) : String :=
  nt.normalizeTableName p.stream_name

/-- `StreamProcessor.current_json_path`. -/
def StreamProcessor.current_json_path (p : StreamProcessor) : String :=
  String.intercalate ("/") p.json_path

/-- `StreamProcessor.sql_table_comment`. -/
def StreamProcessor.sql_table_comment (nt : NameTransformer) (p : StreamProcessor) : String :=
  if 1 < p.json_path.length then
    "-- " ++ p.table_name nt ++ " from " ++ p.current_json_path
  else
    "-- " ++ p.table_name nt

/-- `StreamProcessor.hash_id`: the node's surrogate-key column name. -/
def StreamProcessor.hash_id (nt : NameTransformer) (p : StreamProcessor) : String :=
  nt.normalizeColumnName ("_airbyte_" ++ p.table_name nt ++ "_hashid") false

/-- `StreamProcessor.parent_hash_id`: the parent's hash id column name, or the
empty string for a root node. -/
def StreamProcessor.parent_hash_id (nt : NameTransformer) (p : StreamProcessor) : String :=
  match p.parent with
  | some parent_name =>
    nt.normalizeColumnName ("_airbyte_" ++ nt.normalizeTableName parent_name ++ "_hashid") false
  | none => ""

/-- One item of a rendered `select` list: aliased (`expr as name`) or a bare
column reference. -/
inductive SelectItem where
  | aliased (expr : String) (alias_name : String)
  | bare (column : String)

/-- The Python string a select item renders to. -/
def SelectItem.render : SelectItem → String
  | .aliased e a => e ++ " as " ++ a
  | .bare c => c

/-- The output column name a select item binds. -/
def SelectItem.columnName : SelectItem → String
  | .aliased _ a => a
  | .bare c => c

/-- `StreamProcessor.extract_json_column`: the typed Json-path extraction for
one field (the Python f-string renders the singleton path list with its
quotes). -/
def extract_json_column (nt : NameTransformer) (property_name : String)
    (json_column_name : String) (definition : JValue) : SelectItem :=
  let json_path := "[\x27" ++ property_name ++ "\x27]"
  let json_extract :=
    match getKey definition ("type") with
    | none => jinja_call ("json_extract(" ++ json_column_name ++ ", " ++ json_path ++ ")")
    | some ty =>
      if is_array ty then
        jinja_call ("json_extract_array(" ++ json_column_name ++ ", " ++ json_path ++ ")")
      else if is_object ty then
        jinja_call ("json_extract(" ++ json_column_name ++ ", " ++ json_path ++ ")")
      else if is_simple_property ty then
        jinja_call ("json_extract_scalar(" ++ json_column_name ++ ", " ++ json_path ++ ")")
      else
        jinja_call ("json_extract(" ++ json_column_name ++ ", " ++ json_path ++ ")")
  .aliased json_extract (nt.normalizeColumnName property_name false)

/-- The non-internal `(field, definition)` entries, in declaration order (the
`if not is_airbyte_column(field)` filter shared by all four stages). -/
def StreamProcessor.nonAirbyteProps (p : StreamProcessor) : List (String × JValue) :=
  (propEntries p.properties).filter (fun fd => !is_airbyte_column fd.1)

/-- `StreamProcessor.extract_json_columns`. -/
def StreamProcessor.extract_json_columns (nt : NameTransformer) (p : StreamProcessor) :
    List SelectItem :=
  p.nonAirbyteProps.map (fun fd => extract_json_column nt fd.1 p.json_column_name fd.2)

/-- `cast_property_type_as_array`: arrays pass through unchanged (the BigQuery
struct-typing branch is an unimplemented TODO in the source). -/
def cast_property_type_as_array (nt : NameTransformer) (property_name : String) : SelectItem :=
  .bare (nt.normalizeColumnName property_name false)

/-- `cast_property_type_as_object`: the generic json passthrough cast type. -/
def cast_property_type_as_object : String :=
  jinja_call ("type_json()")

/-- `cast_property_type`: wraps one column in a cast to the dialect's
canonical type; unknown types pass through with a warning. -/
def cast_property_type (nt : NameTransformer) (property_name : String)
    (definition : JValue) : SelectItem :=
  let column_name := nt.normalizeColumnName property_name false
  match getKey definition ("type") with
  | none => .bare column_name
  | some ty =>
    if is_array ty then cast_property_type_as_array nt property_name
    else if is_object ty then
      .aliased ("cast(" ++ column_name ++ " as " ++ cast_property_type_as_object ++ ")") column_name
    else if is_integer ty then
      .aliased ("cast(" ++ column_name ++ " as " ++ jinja_call ("dbt_utils.type_int()") ++ ")") column_name
    else if is_number ty then
      .aliased ("cast(" ++ column_name ++ " as " ++ jinja_call ("dbt_utils.type_float()") ++ ")") column_name
    else if is_boolean ty then
      .aliased (jinja_call ("cast_to_boolean(" ++ nt.normalizeColumnName property_name true ++ ")")) column_name
    else if is_string ty then
      .aliased ("cast(" ++ column_name ++ " as " ++ jinja_call ("dbt_utils.type_string()") ++ ")") column_name
    else .bare column_name

/-- `StreamProcessor.cast_property_types`. -/
def StreamProcessor.cast_property_types (nt : NameTransformer) (p : StreamProcessor) :
    List SelectItem :=
  p.nonAirbyteProps.map (fun fd => cast_property_type nt fd.1 fd.2)

/-- `StreamProcessor.safe_cast_to_string`: stringification of one field for
the surrogate-key input list. -/
def safe_cast_to_string (nt : NameTransformer) (property_name : String)
    (definition : JValue) : String :=
  let column_name := nt.normalizeColumnName property_name true
  match getKey definition ("type") with
  | none => column_name
  | some ty =>
    if is_boolean ty then "boolean_to_string(" ++ column_name ++ ")"
    else if is_array ty then "array_to_string(" ++ column_name ++ ")"
    else column_name

/-- `StreamProcessor.safe_cast_to_strings`. -/
def StreamProcessor.safe_cast_to_strings (nt : NameTransformer) (p : StreamProcessor) :
    List String :=
  p.nonAirbyteProps.map (fun fd => safe_cast_to_string nt fd.1 fd.2)

/-- `StreamProcessor.list_fields`: the normalized column names selected by the
final stage. -/
def StreamProcessor.list_fields (nt : NameTransformer) (p : StreamProcessor) : List String :=
  p.nonAirbyteProps.map (fun fd => nt.normalizeColumnName fd.1 false)

/-- `StreamProcessor.unnesting_before_query`: the unnest CTE prefix, emitted
only for a nested-array child. -/
def StreamProcessor.unnesting_before_query (nt : NameTransformer) (p : StreamProcessor) : String :=
  match p.parent with
  | some parent_name =>
    if p.is_nested_array then
      jinja_call ("unnest_cte(" ++ nt.normalizeTableName parent_name ++ ", " ++
        nt.normalizeColumnName p.stream_name true ++ ")")
    else ""
  | none => ""

/-- `StreamProcessor.unnesting_after_query`: for any child node, a cross-join
clause (nested arrays only) followed by the null filter on the node's column. -/
def StreamProcessor.unnesting_after_query (nt : NameTransformer) (p : StreamProcessor) : String :=
  match p.parent with
  | none => ""
  | some parent_name =>
    let cross_join :=
      if p.is_nested_array then
        jinja_call ("cross_join_unnest(\x27" ++ nt.normalizeTableName parent_name ++ "\x27, " ++
          nt.normalizeColumnName p.stream_name true ++ ")")
      else ""
    "\n" ++ cross_join ++ "\nwhere " ++ nt.normalizeColumnName p.stream_name false ++ " is not null"

/-- Rendering context of the `RAW_EXTRACT` (`ab1`) Jinja template of
`generate_json_parsing_model`. -/
structure JsonParsingModel where
  unnesting_before_query : String
  parent_hash_id : String
  fields : List SelectItem
  from_table : String
  unnesting_after_query : String
  sql_table_comment : String

/-- `StreamProcessor.generate_json_parsing_model`. -/
def StreamProcessor.generate_json_parsing_model (nt : NameTransformer)
    (p : StreamProcessor) (from_table : String) : JsonParsingModel :=
  { unnesting_before_query := p.unnesting_before_query nt
    parent_hash_id := p.parent_hash_id nt
    fields := p.extract_json_columns nt
    from_table := from_table
    unnesting_after_query := p.unnesting_after_query nt
    sql_table_comment := p.sql_table_comment nt }

/-- Rendered text of the `RAW_EXTRACT` template (`{%-` trims the preceding
whitespace and newline; the parent hash id column appears only when the
string is truthy). -/
def JsonParsingModel.render (m : JsonParsingModel) : String :=
  "\n" ++ m.unnesting_before_query ++ "\nselect" ++
  (if m.parent_hash_id ≠ "" then "\n    " ++ m.parent_hash_id ++ "," else "") ++
  String.join (m.fields.map (fun f => "\n    " ++ f.render ++ ",")) ++
  "\n    _airbyte_emitted_at\nfrom " ++ m.from_table ++ "\n" ++
  m.unnesting_after_query ++ "\n" ++ m.sql_table_comment ++ "\n"

/-- Output column names of the `RAW_EXTRACT` stage, in select order. -/
def JsonParsingModel.columns (m : JsonParsingModel) : List String :=
  (if m.parent_hash_id ≠ "" then [m.parent_hash_id] else []) ++
  m.fields.map SelectItem.columnName ++ ["_airbyte_emitted_at"]

/-- Rendering context of the `TYPE_CAST` (`ab2`) Jinja template of
`generate_column_typing_model`. -/
structure ColumnTypingModel where
  parent_hash_id : String
  fields : List SelectItem
  from_table : String
  sql_table_comment : String

/-- `StreamProcessor.generate_column_typing_model`. -/
def StreamProcessor.generate_column_typing_model (nt : NameTransformer)
    (p : StreamProcessor) (from_table : String) : ColumnTypingModel :=
  { parent_hash_id := p.parent_hash_id nt
    fields := p.cast_property_types nt
    from_table := from_table
    sql_table_comment := p.sql_table_comment nt }

/-- Rendered text of the `TYPE_CAST` template. -/
def ColumnTypingModel.render (m : ColumnTypingModel) : String :=
  "\nselect" ++
  (if m.parent_hash_id ≠ "" then "\n    " ++ m.parent_hash_id ++ "," else "") ++
  String.join (m.fields.map (fun f => "\n    " ++ f.render ++ ",")) ++
  "\n    _airbyte_emitted_at\nfrom " ++ m.from_table ++ "\n" ++
  m.sql_table_comment ++ "\n    "

/-- Output column names of the `TYPE_CAST` stage, in select order. -/
def ColumnTypingModel.columns (m : ColumnTypingModel) : List String :=
  (if m.parent_hash_id ≠ "" then [m.parent_hash_id] else []) ++
  m.fields.map SelectItem.columnName ++ ["_airbyte_emitted_at"]

/-- Rendering context of the `HASH_ID` (`ab3`) Jinja template of
`generate_id_hashing_model`. -/
structure IdHashingModel where
  parent_hash_id : String
  fields : List String
  hash_id : String
  from_table : String
  sql_table_comment : String

/-- `StreamProcessor.generate_id_hashing_model`. -/
def StreamProcessor.generate_id_hashing_model (nt : NameTransformer)
    (p : StreamProcessor) (from_table : String) : IdHashingModel :=
  { parent_hash_id := p.parent_hash_id nt
    fields := p.safe_cast_to_strings nt
    hash_id := p.hash_id nt
    from_table := from_table
    sql_table_comment := p.sql_table_comment nt }

/-- Rendered text of the `HASH_ID` template: `select *` plus the surrogate-key
column (the parent hash id, when truthy, is passed as a quoted literal). -/
def IdHashingModel.render (m : IdHashingModel) : String :=
  "\nselect\n    *,\n    \x7b\x7b dbt_utils.surrogate_key([" ++
  (if m.parent_hash_id ≠ "" then "\n        \x27" ++ m.parent_hash_id ++ "\x27," else "") ++
  String.join (m.fields.map (fun f => "\n        " ++ f ++ ",")) ++
  "\n    ]) \x7d\x7d as " ++ m.hash_id ++ "\nfrom " ++ m.from_table ++ "\n" ++
  m.sql_table_comment ++ "\n    "

/-- The ordered argument list handed to the dialect surrogate-key function by
the `HASH_ID` template. -/
def IdHashingModel.surrogate_key_inputs (m : IdHashingModel) : List String :=
  (if m.parent_hash_id ≠ "" then [m.parent_hash_id] else []) ++ m.fields

/-- Rendering context of the `FINAL` Jinja template of
`generate_final_model`. -/
structure FinalModel where
  parent_hash_id : String
  fields : List String
  hash_id : String
  from_table : String
  sql_table_comment : String

/-- `StreamProcessor.generate_final_model`. -/
def StreamProcessor.generate_final_model (nt : NameTransformer)
    (p : StreamProcessor) (from_table : String) : FinalModel :=
  { parent_hash_id := p.parent_hash_id nt
    fields := p.list_fields nt
    hash_id := p.hash_id nt
    from_table := from_table
    sql_table_comment := p.sql_table_comment nt }

/-- Rendered text of the `FINAL` template. -/
def FinalModel.render (m : FinalModel) : String :=
  "\nselect" ++
  (if m.parent_hash_id ≠ "" then "\n    " ++ m.parent_hash_id ++ "," else "") ++
  String.join (m.fields.map (fun f => "\n    " ++ f ++ ",")) ++
  "\n    _airbyte_emitted_at,\n    " ++ m.hash_id ++ "\nfrom " ++ m.from_table ++ "\n" ++
  m.sql_table_comment ++ "\n    "

/-- Output column names of the `FINAL` stage, in select order. -/
def FinalModel.columns (m : FinalModel) : List String :=
  (if m.parent_hash_id ≠ "" then [m.parent_hash_id] else []) ++
  m.fields ++ ["_airbyte_emitted_at", m.hash_id]

/-- `register_new_table`: check-then-insert into the global `table_context`;
re-requesting a present name raises `KeyError`. -/
def register_new_table (table_context : List String) (table_name : String) :
    Except String (List String) :=
  if table_name ∉ table_context then .ok (table_context ++ [table_name])
  else .error ("Duplicate table " ++ table_name)

/-- A run of successive `register_new_table` calls, as one compilation run
performs. -/
def register_sequence (table_context : List String) :
    List String → Except String (List String)
  | [] => .ok table_context
  | n :: ns =>
    match register_new_table table_context n with
    | .error e => .error e
    | .ok ctx => register_sequence ctx ns

/-- The candidate the collision loop tries at index `i`: the re-normalized
base name with suffix `_i`, or `_i_suffix` when a stage suffix is given. -/
def intermediate_candidate (nt : NameTransformer) (base suffix : String) (i : Nat) : String :=
  if suffix ≠ "" then nt.normalizeTableName (base ++ "_" ++ toString i ++ "_" ++ suffix)
  else nt.normalizeTableName (base ++ "_" ++ toString i)

/-- The `for i in range(1, 1000)` collision loop of `generate_new_table_name`:
`new_table_name` carries the last tried candidate, and the loop breaks at the
first candidate absent from the registry. -/
def collision_loop (cand : Nat → String) (table_context : List String) :
    List Nat → String → String
  | [], new_table_name => new_table_name
  | i :: rest, _ =>
    if cand i ∈ table_context then collision_loop cand table_context rest (cand i)
    else cand i

/-- `StreamProcessor.generate_new_table_name`: top-level final tables keep the
normalized stream name outright; every other table goes through the collision
loop; the chosen name is then registered (which can raise). -/
def StreamProcessor.generate_new_table_name (nt : NameTransformer) (p : StreamProcessor)
    (table_context : List String) (is_intermediate : Bool) (suffix : String) :
    Except String (String × List String) :=
  let table_name := p.table_name nt
  let new_table_name :=
    if is_intermediate = false ∧ p.parent = none then table_name
    else
      collision_loop (intermediate_candidate nt table_name suffix) table_context
        (List.range' 1 999) table_name
  match register_new_table table_context new_table_name with
  | .error e => .error e
  | .ok ctx => .ok (new_table_name, ctx)

/-- One emitted model file: name, destination schema and post-processed
contents. -/
structure Artifact where
  file : String
  schema : String
  contents : String

/-- `output_sql_file` writes the header then the non-blank sql lines, then a
final newline; the file-system side is out of scope, the text written is
kept. -/
def output_sql_file (header sql : String) : String :=
  header ++
  String.join (((sql.splitOn ("\n")).filter (fun line => line.trim ≠ "")).map
    (fun line => line ++ "\n")) ++ "\n"

/-- `StreamProcessor.get_schema`. -/
def StreamProcessor.get_schema (p : StreamProcessor) (is_intermediate : Bool) : String :=
  if is_intermediate then p.raw_schema else p.schema

/-- `ref_table`: the opaque dbt reference token returned by a stage write. -/
def ref_table (table_name : String) : String :=
  "\x7b\x7b ref(\x27" ++ table_name ++ "\x27) \x7d\x7d"

/-- `StreamProcessor.write_model`: allocate a table name (mutating the
registry), emit the artifact, return the reference token. -/
def StreamProcessor.write_model (nt : NameTransformer) (p : StreamProcessor)
    (table_context : List String) (sql : String) (is_intermediate : Bool) (suffix : String) :
    Except String (String × List String × Artifact) :=
  match p.generate_new_table_name nt table_context is_intermediate suffix with
  | .error e => .error e
  | .ok (table_name, ctx) =>
    let header := "\x7b\x7b config(schema=\x27" ++ p.get_schema is_intermediate ++ "\x27) \x7d\x7d\n"
    .ok (ref_table table_name, ctx,
      ⟨table_name ++ ".sql", p.get_schema is_intermediate, output_sql_file header sql⟩)

/-- The body of the `find_children_streams` loop for one `field`: which
children the field spawns, with which json accessor and nested-array flag
(`children_properties` falsy, whether `None` or empty, spawns nothing). -/
def children_for_field (nt : NameTransformer) (p : StreamProcessor)
    (field : String) (definition : JValue) : Except String (List StreamProcessor) :=
  let spawn := fun (children_properties : List (String × Option JValue))
      (is_nested_array : Bool) (json_column_name : String) =>
    children_properties.map (fun ck =>
      StreamProcessor.initFromParent p field json_column_name ck.2 is_nested_array)
  if is_airbyte_column field then .ok []
  else if is_combining_node definition then .ok []
  else
    match getKey definition ("type") with
    | none =>
      match find_properties_object [] field definition with
      | .error e => .error e
      | .ok cps => .ok (spawn cps false ("\x27" ++ field ++ "\x27"))
    | some ty =>
      if is_object ty then
        match find_properties_object [] field definition with
        | .error e => .error e
        | .ok cps => .ok (spawn cps false ("\x27" ++ field ++ "\x27"))
      else if is_array ty && hasKey definition ("items") then
        match getKey definition ("items") with
        | none => .ok []
        | some items =>
          match find_properties_object [] field items with
          | .error e => .error e
          | .ok cps =>
            .ok (spawn cps true ("unnested_column_value(" ++
              nt.normalizeColumnName field true ++ ")"))
      else .ok []

/-- `StreamProcessor.find_children_streams`: one pass over the declared
fields, concatenating each field's spawned children in declaration order. -/
def StreamProcessor.find_children_streams (nt : NameTransformer) (p : StreamProcessor) :
    Except String (List StreamProcessor) :=
  (propEntries p.properties).foldlM (fun children fd => do
    let cs ← children_for_field nt p fd.1 fd.2
    pure (children ++ cs)) []

/-- `StreamProcessor.process`: skip property-less nodes; otherwise thread the
registry through the four stage writes and report the final reference token,
the discovered children, the updated registry and the emitted artifacts. -/
def StreamProcessor.process (nt : NameTransformer) (p : StreamProcessor)
    (from_table : String) (table_context : List String) :
    Except String (Option (String × List StreamProcessor) × List String × List Artifact) :=
  if propsTruthy p.properties = false then .ok (none, table_context, [])
  else
    match p.write_model nt table_context (p.generate_json_parsing_model nt from_table).render true ("ab1") with
    | .error e => .error e
    | .ok (t1, ctx1, a1) =>
      match p.write_model nt ctx1 (p.generate_column_typing_model nt t1).render true ("ab2") with
      | .error e => .error e
      | .ok (t2, ctx2, a2) =>
        match p.write_model nt ctx2 (p.generate_id_hashing_model nt t2).render true ("ab3") with
        | .error e => .error e
        | .ok (t3, ctx3, a3) =>
          match p.write_model nt ctx3 (p.generate_final_model nt t3).render false ("") with
          | .error e => .error e
          | .ok (t4, ctx4, a4) =>
            match p.find_children_streams nt with
            | .error e => .error e
            | .ok children => .ok (some (t4, children), ctx4, [a1, a2, a3, a4])

/-- Unfolding `find_properties_object` on a dictionary wrapping an `items`
definition. -/
theorem fpo_obj_items (path : List String) (field : String)
    (l : List (String × JValue)) (its : JValue)
    (h : getKeyL l ("items") = some its) :
    find_properties_object path field (.obj l) = find_properties_object path field its := by
  rw [find_properties_object]
  split
  · rename_i x heq
    rw [h] at heq
    obtain rfl := Option.some.inj heq
    rfl
  · rename_i heq
    rw [h] at heq
    cases heq

/-- Unfolding `find_properties_object` on a dictionary carrying a
`properties` map. -/
theorem fpo_obj_properties (path : List String) (field : String)
    (l : List (String × JValue)) (props : JValue)
    (h1 : getKeyL l ("items") = none) (h2 : getKeyL l ("properties") = some props) :
    find_properties_object path field (.obj l) =
      .ok [(String.intercalate ("_") (path ++ [field]), some props)] := by
  rw [find_properties_object]
  split
  · rename_i x heq
    rw [h1] at heq
    cases heq
  · simp only [h2]

/-- Unfolding `find_properties_object` on a dictionary declaring a leaf
scalar type. -/
theorem fpo_obj_simple (path : List String) (field : String)
    (l : List (String × JValue)) (ty : JValue)
    (h1 : getKeyL l ("items") = none) (h2 : getKeyL l ("properties") = none)
    (h3 : getKeyL l ("type") = some ty) (h4 : is_simple_property ty = true) :
    find_properties_object path field (.obj l) =
      .ok [(String.intercalate ("_") (path ++ [field]), none)] := by
  rw [find_properties_object]
  split
  · rename_i x heq
    rw [h1] at heq
    cases heq
  · simp only [h2, h3, h4, if_true]

/-- Unfolding `find_properties_object` on a plain dictionary: recurse into
every member. -/
theorem fpo_obj_fold (path : List String) (field : String)
    (l : List (String × JValue))
    (h1 : getKeyL l ("items") = none) (h2 : getKeyL l ("properties") = none)
    (h3 : ∀ ty, getKeyL l ("type") = some ty → is_simple_property ty = false) :
    find_properties_object path field (.obj l) = fpo_fold_obj (path ++ [field]) l [] := by
  rw [find_properties_object]
  split
  · rename_i x heq
    rw [h1] at heq
    cases heq
  · simp only [h2]
    split
    · rename_i ty heq
      simp only [h3 ty heq, Bool.false_eq_true, if_false]
    · rfl

/-- Unfolding `find_properties_object` on a list that carries no literal
marker strings: recurse into every item. -/
theorem fpo_arr_fold (path : List String) (field : String) (l : List JValue)
    (h1 : l.any (fun v => v == JValue.str ("items")) = false)
    (h2 : l.any (fun v => v == JValue.str ("properties")) = false)
    (h3 : l.any (fun v => v == JValue.str ("type")) = false) :
    find_properties_object path field (.arr l) = fpo_fold_arr (path ++ [field]) field l [] := by
  rw [find_properties_object]
  simp only [h1, h2, h3, Bool.false_eq_true, if_false]

/-- `find_properties_object` on scalar leaves (Python `isinstance(str/int)`
guard, booleans included). -/
theorem fpo_scalar (path : List String) (field : String) :
    (∀ s, find_properties_object path field (.str s) = .ok []) ∧
    (∀ b, find_properties_object path field (.bool b) = .ok []) ∧
    (∀ n, find_properties_object path field (.num n) = .ok []) := by
  refine ⟨fun s => ?_, fun b => ?_, fun n => ?_⟩ <;> rw [find_properties_object]

/-- A Jinja call is never the empty string. -/
theorem jinja_call_ne_empty (command : String) : jinja_call command ≠ "" := by
  intro h
  have hlen := congrArg String.length h
  rw [jinja_call] at hlen
  rw [String.length_append, String.length_append] at hlen
  have h1 : ("\x7b\x7b ").length = 3 := rfl
  have h2 : (" \x7d\x7d").length = 3 := rfl
  have h3 : ("").length = 0 := rfl
  omega

/-- Every raw-extraction select item is aliased to the normalized field
name. -/
theorem extract_json_column_columnName (nt : NameTransformer) (property_name : String)
    (json_column_name : String) (definition : JValue) :
    (extract_json_column nt property_name json_column_name definition).columnName =
      nt.normalizeColumnName property_name false := rfl

/-- Every type-cast select item binds the normalized field name. -/
theorem cast_property_type_columnName (nt : NameTransformer) (property_name : String)
    (definition : JValue) :
    (cast_property_type nt property_name definition).columnName =
      nt.normalizeColumnName property_name false := by
  rw [cast_property_type]
  split
  · rfl
  · rename_i ty _
    by_cases h1 : is_array ty = true
    · simp only [h1, if_true]
      rfl
    · simp only [h1, Bool.false_eq_true, if_false]
      split_ifs <;> rfl

/-- The collision loop over consecutive indices returns the first absent
candidate. -/
theorem collision_loop_finds (cand : Nat → String) (ctx : List String) :
    ∀ (n a : Nat) (init : String) (i : Nat), a ≤ i → i < a + n → cand i ∉ ctx →
      (∀ j, a ≤ j → j < i → cand j ∈ ctx) →
      collision_loop cand ctx (List.range' a n) init = cand i := by
  intro n
  induction n with
  | zero =>
    intro a init i h1 h2 _ _
    omega
  | succ m ih =>
    intro a init i h1 h2 h3 h4
    have hr : List.range' a (m + 1) = a :: List.range' (a + 1) m := List.range'_succ a m 1
    rw [hr, collision_loop]
    by_cases hai : i = a
    · subst hai
      rw [if_neg h3]
    · have ha : cand a ∈ ctx := h4 a (Nat.le_refl a) (by omega)
      rw [if_pos ha]
      exact ih (a + 1) (cand a) i (by omega) (by omega) h3
        (fun j hj1 hj2 => h4 j (by omega) hj2)

/-- When every tried candidate is present and the carried name is present,
the collision loop can only return a present name. -/
theorem collision_loop_stuck (cand : Nat → String) (ctx : List String) :
    ∀ (L : List Nat) (init : String), (∀ i ∈ L, cand i ∈ ctx) → init ∈ ctx →
      collision_loop cand ctx L init ∈ ctx := by
  intro L
  induction L with
  | nil =>
    intro init _ hi
    rw [collision_loop]
    exact hi
  | cons i rest ih =>
    intro init h hi
    rw [collision_loop]
    have hci : cand i ∈ ctx := h i (List.mem_cons_self i rest)
    rw [if_pos hci]
    exact ih (cand i) (fun j hj => h j (List.mem_cons_of_mem i hj)) hci

/-- A successful run of registrations only extends the registry and preserves
distinctness. -/
theorem register_sequence_extends : ∀ (names : List String) (ctx ctx' : List String),
    register_sequence ctx names = .ok ctx' → ctx ⊆ ctx' ∧ (ctx.Nodup → ctx'.Nodup) := by
  intro names
  induction names with
  | nil =>
    intro ctx ctx' h
    rw [register_sequence] at h
    obtain rfl := Except.ok.inj h
    exact ⟨List.Subset.refl ctx, fun hd => hd⟩
  | cons n ns ih =>
    intro ctx ctx' h
    rw [register_sequence, register_new_table] at h
    by_cases hm : n ∉ ctx
    · rw [if_pos hm] at h
      obtain ⟨hsub, hnd⟩ := ih (ctx ++ [n]) ctx' h
      constructor
      · exact fun a ha => hsub (List.mem_append_left [n] ha)
      · intro hnddup
        exact hnd (List.Nodup.append hnddup (List.nodup_singleton n)
          (by simpa [List.disjoint_singleton] using hm))
    · rw [if_neg hm] at h
      cases h

/-- C2: the table-name registry only ever grows.  `register_new_table` inserts
an absent name at the end of the registry and raises `KeyError` on a present
one; any successful run of registrations extends the registry without
removing or renaming entries and keeps all registered names pairwise
distinct. -/
theorem registry_append_only (ctx : List String) (table_name : String) :
    (table_name ∉ ctx → register_new_table ctx table_name = .ok (ctx ++ [table_name])) ∧
    (table_name ∈ ctx →
      register_new_table ctx table_name = .error ("Duplicate table " ++ table_name)) ∧
    (∀ ctx', register_new_table ctx table_name = .ok ctx' →
      ctx ⊆ ctx' ∧ table_name ∈ ctx' ∧ (ctx.Nodup → ctx'.Nodup)) ∧
    (∀ names ctx', register_sequence ctx names = .ok ctx' →
      ctx ⊆ ctx' ∧ (ctx.Nodup → ctx'.Nodup)) := by
  refine ⟨fun habs => ?_, fun hmem => ?_, fun ctx' h => ?_, fun names => register_sequence_extends names ctx⟩
  · rw [register_new_table, if_pos habs]
  · rw [register_new_table, if_neg (by simpa using hmem)]
  · rw [register_new_table] at h
    by_cases hm : table_name ∉ ctx
    · rw [if_pos hm] at h
      obtain rfl := Except.ok.inj h
      refine ⟨fun a ha => List.mem_append_left [table_name] ha,
        List.mem_append_right ctx (List.mem_singleton_self table_name), fun hd => ?_⟩
      exact List.Nodup.append hd (List.nodup_singleton table_name)
        (by simpa [List.disjoint_singleton] using hm)
    · rw [if_neg hm] at h
      cases h

/-- Witness for C2: registering a fresh name appends it; registering it again
raises the duplicate error. -/
theorem registry_append_only_witness :
    register_new_table ["users"] "users_1_ab1" = .ok ["users", "users_1_ab1"] ∧
    register_new_table ["users", "users_1_ab1"] "users_1_ab1" =
      .error ("Duplicate table users_1_ab1") := by
  refine ⟨(registry_append_only ["users"] "users_1_ab1").1 (by decide), ?_⟩
  exact (registry_append_only ["users", "users_1_ab1"] "users_1_ab1").2.1 (by decide)

/-- C1: for an intermediate-role allocation (an intermediate stage, or any
table of a node with a parent), `generate_new_table_name` tries the
normalized candidates with suffix `_i` (or `_i_suffix`) for i = 1..999 in
increasing order, returns and registers the first candidate absent from the
registry, and raises when all 999 candidates are present. -/
theorem generate_new_table_name_intermediate (nt : NameTransformer) (p : StreamProcessor)
    (ctx : List String) (is_intermediate : Bool) (suffix : String)
    (hrole : is_intermediate = true ∨ p.parent ≠ none) :
    (∀ i, 1 ≤ i → i ≤ 999 →
      intermediate_candidate nt (p.table_name nt) suffix i ∉ ctx →
      (∀ j, 1 ≤ j → j < i → intermediate_candidate nt (p.table_name nt) suffix j ∈ ctx) →
      p.generate_new_table_name nt ctx is_intermediate suffix =
        .ok (intermediate_candidate nt (p.table_name nt) suffix i,
          ctx ++ [intermediate_candidate nt (p.table_name nt) suffix i])) ∧
    ((∀ i, 1 ≤ i → i ≤ 999 → intermediate_candidate nt (p.table_name nt) suffix i ∈ ctx) →
      ∃ e, p.generate_new_table_name nt ctx is_intermediate suffix = .error e) := by
  have hcond : ¬(is_intermediate = false ∧ p.parent = none) := by
    rcases hrole with h | h
    · intro hc
      rw [h] at hc
      cases hc.1
    · intro hc
      exact h hc.2
  constructor
  · intro i hi1 hi2 habs hbefore
    rw [StreamProcessor.generate_new_table_name]
    simp only [hcond, if_false]
    rw [collision_loop_finds (intermediate_candidate nt (p.table_name nt) suffix) ctx
      999 1 (p.table_name nt) i hi1 (by omega) habs hbefore]
    rw [register_new_table, if_pos habs]
  · intro hall
    rw [StreamProcessor.generate_new_table_name]
    simp only [hcond, if_false]
    have hrange : List.range' 1 999 = 1 :: List.range' 2 998 := List.range'_succ 1 998 1
    have hc1 : intermediate_candidate nt (p.table_name nt) suffix 1 ∈ ctx :=
      hall 1 (Nat.le_refl 1) (by omega)
    have hres : collision_loop (intermediate_candidate nt (p.table_name nt) suffix) ctx
        (List.range' 1 999) (p.table_name nt) ∈ ctx := by
      rw [hrange, collision_loop, if_pos hc1]
      refine collision_loop_stuck _ ctx (List.range' 2 998) _ (fun i hi => ?_) hc1
      rw [List.mem_range'_1] at hi
      exact hall i (by omega) (by omega)
    rw [register_new_table, if_neg (by simpa using hres)]
    exact ⟨_, rfl⟩

/-- Witness for C1: with an empty registry the first candidate `users_1_ab1`
is chosen and registered. -/
theorem generate_new_table_name_intermediate_witness :
    StreamProcessor.generate_new_table_name idNT
      (StreamProcessor.init "users" "rs" "sc" "jc" (some (.obj []))) [] true ("ab1") =
      .ok ("users_1_ab1", ["users_1_ab1"]) := by
  have h := (generate_new_table_name_intermediate idNT
    (StreamProcessor.init "users" "rs" "sc" "jc" (some (.obj []))) [] true ("ab1")
    (Or.inl rfl)).1 1 (Nat.le_refl 1) (by omega) (by decide)
    (fun j _ hj2 => absurd hj2 (by omega))
  exact h

/-- A concrete root stream used to evaluate the development: integer, boolean
and array fields plus a nested array of objects. -/
def parent_stream : StreamProcessor :=
  StreamProcessor.init "users" "rs" "sc" "_airbyte_data" (some (.obj [
    ("id", .obj [("type", .str "integer")]),
    ("active", .obj [("type", .str "boolean")]),
    ("tags", .obj [("type", .str "array"), ("items", .obj [("type", .str "string")])]),
    ("addresses", .obj [("type", .str "array"),
      ("items", .obj [("properties", .obj [("street", .obj [("type", .str "string")])])])])]))

/-- The nested-array child of `parent_stream` for its `addresses` field. -/
def child_stream : StreamProcessor :=
  StreamProcessor.initFromParent parent_stream "addresses"
    ("unnested_column_value(addresses)")
    (some (.obj [("street", .obj [("type", .str "string")])])) true

/-- C3 (amended): a node whose property dictionary is empty (or `None`) is
skipped: `process` emits no artifacts, leaves the registry untouched and
reports no result. -/
theorem process_skips_falsy_properties (nt : NameTransformer) (p : StreamProcessor)
    (from_table : String) (ctx : List String)
    (h : propsTruthy p.properties = false) :
    p.process nt from_table ctx = .ok (none, ctx, []) := by
  rw [StreamProcessor.process, if_pos h]

/-- Witness for C3: a stream with an empty property dictionary is skipped. -/
theorem process_skips_falsy_properties_witness :
    propsTruthy (StreamProcessor.init "empty" "rs" "sc" "jc" (some (.obj []))).properties = false ∧
    (StreamProcessor.init "empty" "rs" "sc" "jc" (some (.obj []))).process idNT "src" ["users"] =
      .ok (none, ["users"], []) :=
  ⟨rfl, process_skips_falsy_properties idNT
    (StreamProcessor.init "empty" "rs" "sc" "jc" (some (.obj []))) "src" ["users"] rfl⟩

/-- A stream whose every declared property is internal metadata: its
non-internal property set is empty while the property dictionary is not. -/
def internal_only_stream : StreamProcessor :=
  StreamProcessor.init "events" "rs" "sc" "_airbyte_data"
    (some (.obj [("_airbyte_extra", .obj [])]))

/-- Counterexample to C3 as stated: the guard tests the whole property
dictionary, not its non-internal subset, so a node all of whose properties
are internal metadata still emits four artifacts and registers four names. -/
theorem process_empty_usable_set_not_skipped :
    ((propEntries internal_only_stream.properties).filter
      (fun fd => !is_airbyte_column fd.1) = []) ∧
    (internal_only_stream.process idNT "src" []).map
      (fun r => ((r.2.1).length, (r.2.2).length, (r.1).isSome)) = .ok (4, 4, true) :=
  ⟨rfl, rfl⟩

/-- C4: the TYPE_CAST stage binds exactly the RAW_EXTRACT stage's column
names in the same order, and the FINAL stage's columns are the parent hash id
(when a parent exists), the declared non-internal fields' normalized names in
declaration order, the emission timestamp, and the node's own hash id. -/
theorem stage_column_parity (nt : NameTransformer) (p : StreamProcessor)
    (t1 t2 t3 : String)
    (hph : p.parent = none ∨ p.parent_hash_id nt ≠ "") :
    (p.generate_column_typing_model nt t2).columns =
      (p.generate_json_parsing_model nt t1).columns ∧
    (p.generate_final_model nt t3).columns =
      (match p.parent with
        | some _ => [p.parent_hash_id nt]
        | none => []) ++
      p.nonAirbyteProps.map (fun fd => nt.normalizeColumnName fd.1 false) ++
      ["_airbyte_emitted_at", p.hash_id nt] := by
  constructor
  · simp only [StreamProcessor.generate_column_typing_model,
      StreamProcessor.generate_json_parsing_model, ColumnTypingModel.columns,
      JsonParsingModel.columns, StreamProcessor.cast_property_types,
      StreamProcessor.extract_json_columns, List.map_map]
    congr 1
    congr 1
    apply List.map_congr_left
    intro fd _
    simp only [Function.comp_apply, cast_property_type_columnName,
      extract_json_column_columnName]
  · rcases hp : p.parent with _ | parent_name
    · have hempty : p.parent_hash_id nt = "" := by
        rw [StreamProcessor.parent_hash_id, hp]
      simp [FinalModel.columns, StreamProcessor.generate_final_model, hempty, hp,
        StreamProcessor.list_fields]
    · have hne : p.parent_hash_id nt ≠ "" := by
        refine hph.resolve_left ?_
        rw [hp]
        exact fun hc => Option.noConfusion hc
      simp [FinalModel.columns, StreamProcessor.generate_final_model, hne, hp,
        StreamProcessor.list_fields]

/-- Witness for C4: column parity on the concrete nested-array child. -/
theorem stage_column_parity_witness :
    (child_stream.generate_column_typing_model idNT "t2").columns =
      (child_stream.generate_json_parsing_model idNT "t1").columns ∧
    (child_stream.generate_final_model idNT "t3").columns =
      (match child_stream.parent with
        | some _ => [child_stream.parent_hash_id idNT]
        | none => []) ++
      child_stream.nonAirbyteProps.map (fun fd => idNT.normalizeColumnName fd.1 false) ++
      ["_airbyte_emitted_at", child_stream.hash_id idNT] :=
  stage_column_parity idNT child_stream "t1" "t2" "t3" (Or.inr (by decide))

/-- C5: the HASH_ID stage's surrogate-key input list is the parent hash id
(when a parent exists) followed by every non-internal field's stringified
form in declaration order — booleans via the boolean stringifier, arrays via
the array stringifier, everything else unchanged — and a child node's input
list always begins with its parent's hash id. -/
theorem hash_id_input_list (nt : NameTransformer) (p : StreamProcessor)
    (from_table : String)
    (hph : p.parent = none ∨ p.parent_hash_id nt ≠ "") :
    (p.generate_id_hashing_model nt from_table).surrogate_key_inputs =
      (match p.parent with
        | some _ => [p.parent_hash_id nt]
        | none => []) ++
      p.nonAirbyteProps.map (fun fd =>
        match getKey fd.2 ("type") with
        | none => nt.normalizeColumnName fd.1 true
        | some ty =>
          if is_boolean ty then "boolean_to_string(" ++ nt.normalizeColumnName fd.1 true ++ ")"
          else if is_array ty then "array_to_string(" ++ nt.normalizeColumnName fd.1 true ++ ")"
          else nt.normalizeColumnName fd.1 true) ∧
    (∀ parent_name, p.parent = some parent_name →
      ((p.generate_id_hashing_model nt from_table).surrogate_key_inputs).head? =
        some (p.parent_hash_id nt)) := by
  constructor
  · simp only [StreamProcessor.generate_id_hashing_model,
      IdHashingModel.surrogate_key_inputs]
    congr 1
    · rcases hp : p.parent with _ | parent_name
      · have hempty : p.parent_hash_id nt = "" := by
          rw [StreamProcessor.parent_hash_id, hp]
        simp [hempty]
      · have hne : p.parent_hash_id nt ≠ "" := by
          refine hph.resolve_left ?_
          rw [hp]
          exact fun hc => Option.noConfusion hc
        simp [hne]
  · intro parent_name hp
    have hne : p.parent_hash_id nt ≠ "" := by
      refine hph.resolve_left ?_
      rw [hp]
      exact fun hc => Option.noConfusion hc
    simp only [StreamProcessor.generate_id_hashing_model,
      IdHashingModel.surrogate_key_inputs]
    rw [if_pos hne]
    rfl

/-- Witness for C5: the child's surrogate-key inputs start with the parent's
hash id and stringify the declared field. -/
theorem hash_id_input_list_witness :
    (child_stream.generate_id_hashing_model idNT "t").surrogate_key_inputs =
      (match child_stream.parent with
        | some _ => [child_stream.parent_hash_id idNT]
        | none => []) ++
      child_stream.nonAirbyteProps.map (fun fd =>
        match getKey fd.2 ("type") with
        | none => idNT.normalizeColumnName fd.1 true
        | some ty =>
          if is_boolean ty then "boolean_to_string(" ++ idNT.normalizeColumnName fd.1 true ++ ")"
          else if is_array ty then "array_to_string(" ++ idNT.normalizeColumnName fd.1 true ++ ")"
          else idNT.normalizeColumnName fd.1 true) ∧
    ((child_stream.generate_id_hashing_model idNT "t").surrogate_key_inputs).head? =
      some (child_stream.parent_hash_id idNT) := by
  have h := hash_id_input_list idNT child_stream "t" (Or.inr (by decide))
  exact ⟨h.1, h.2 "users" rfl⟩

/-- C6: an array-of-objects field spawns exactly one nested-array child with
an unnest accessor over the expression-safe normalized field name, while an
object-typed (or untyped) field resolving to a composite map spawns a
non-array child whose accessor is the literal quoted field token. -/
theorem array_vs_object_children (nt : NameTransformer) (p : StreamProcessor)
    (field : String) (l m : List (String × JValue)) (ty props : JValue)
    (hair : is_airbyte_column field = false)
    (hcomb : is_combining_node (.obj l) = false) :
    (getKeyL l ("type") = some ty → is_object ty = false → is_array ty = true →
      getKeyL l ("items") = some (.obj m) → getKeyL m ("items") = none →
      getKeyL m ("properties") = some props →
      children_for_field nt p field (.obj l) =
        .ok [StreamProcessor.initFromParent p field
          ("unnested_column_value(" ++ nt.normalizeColumnName field true ++ ")")
          (some props) true]) ∧
    (getKeyL l ("type") = none → getKeyL l ("items") = none →
      getKeyL l ("properties") = some props →
      children_for_field nt p field (.obj l) =
        .ok [StreamProcessor.initFromParent p field ("\x27" ++ field ++ "\x27")
          (some props) false]) ∧
    (getKeyL l ("type") = some ty → is_object ty = true →
      getKeyL l ("items") = none → getKeyL l ("properties") = some props →
      children_for_field nt p field (.obj l) =
        .ok [StreamProcessor.initFromParent p field ("\x27" ++ field ++ "\x27")
          (some props) false]) := by
  refine ⟨fun hty hobj harr hits hm1 hm2 => ?_, fun hty hits hprops => ?_,
    fun hty hobj hits hprops => ?_⟩
  · have hfpo := fpo_obj_properties [] field m props hm1 hm2
    rw [children_for_field]
    simp [hair, hcomb, getKey, hty, hobj, harr, hasKey, hits, hfpo]
  · have hfpo := fpo_obj_properties [] field l props hits hprops
    rw [children_for_field]
    simp [hair, hcomb, getKey, hty, hfpo]
  · have hfpo := fpo_obj_properties [] field l props hits hprops
    rw [children_for_field]
    simp [hair, hcomb, getKey, hty, hobj, hfpo]

/-- Witness for C6: a concrete array-of-objects field and a concrete
object field. -/
theorem array_vs_object_children_witness :
    children_for_field idNT parent_stream "addresses"
      (.obj [("type", .str "array"),
        ("items", .obj [("properties", .obj [("street", .obj [("type", .str "string")])])])]) =
      .ok [StreamProcessor.initFromParent parent_stream "addresses"
        ("unnested_column_value(addresses)")
        (some (.obj [("street", .obj [("type", .str "string")])])) true] ∧
    children_for_field idNT parent_stream "profile"
      (.obj [("type", .str "object"),
        ("properties", .obj [("age", .obj [("type", .str "integer")])])]) =
      .ok [StreamProcessor.initFromParent parent_stream "profile" ("\x27profile\x27")
        (some (.obj [("age", .obj [("type", .str "integer")])])) false] := by
  refine ⟨?_, ?_⟩
  · exact (array_vs_object_children idNT parent_stream "addresses"
      [("type", .str "array"),
        ("items", .obj [("properties", .obj [("street", .obj [("type", .str "string")])])])]
      [("properties", .obj [("street", .obj [("type", .str "string")])])]
      (.str "array") (.obj [("street", .obj [("type", .str "string")])])
      rfl rfl).1 rfl rfl rfl rfl rfl rfl
  · exact (array_vs_object_children idNT parent_stream "profile"
      [("type", .str "object"),
        ("properties", .obj [("age", .obj [("type", .str "integer")])])]
      [] (.str "object") (.obj [("age", .obj [("type", .str "integer")])])
      rfl rfl).2.2 rfl rfl rfl rfl

/-- C7: the nested-property discovery function follows the claimed case
analysis: scalar leaves yield nothing, an `items` wrapper is recursed into
under the same path, a `properties` map stops with the underscore-joined
path as key, a recognized leaf scalar yields the leaf marker, and otherwise
a dictionary or list is recursed into member-wise with merged results. -/
theorem find_properties_object_cases (path : List String) (field : String) :
    (∀ s, find_properties_object path field (.str s) = .ok []) ∧
    (∀ b, find_properties_object path field (.bool b) = .ok []) ∧
    (∀ n, find_properties_object path field (.num n) = .ok []) ∧
    (∀ l its, getKeyL l ("items") = some its →
      find_properties_object path field (.obj l) = find_properties_object path field its) ∧
    (∀ l props, getKeyL l ("items") = none → getKeyL l ("properties") = some props →
      find_properties_object path field (.obj l) =
        .ok [(String.intercalate ("_") (path ++ [field]), some props)]) ∧
    (∀ l ty, getKeyL l ("items") = none → getKeyL l ("properties") = none →
      getKeyL l ("type") = some ty → is_simple_property ty = true →
      find_properties_object path field (.obj l) =
        .ok [(String.intercalate ("_") (path ++ [field]), none)]) ∧
    (∀ l, getKeyL l ("items") = none → getKeyL l ("properties") = none →
      (∀ ty, getKeyL l ("type") = some ty → is_simple_property ty = false) →
      find_properties_object path field (.obj l) = fpo_fold_obj (path ++ [field]) l []) ∧
    (∀ l, l.any (fun v => v == JValue.str ("items")) = false →
      l.any (fun v => v == JValue.str ("properties")) = false →
      l.any (fun v => v == JValue.str ("type")) = false →
      find_properties_object path field (.arr l) = fpo_fold_arr (path ++ [field]) field l []) :=
  ⟨(fpo_scalar path field).1, (fpo_scalar path field).2.1, (fpo_scalar path field).2.2,
    fun l its h => fpo_obj_items path field l its h,
    fun l props h1 h2 => fpo_obj_properties path field l props h1 h2,
    fun l ty h1 h2 h3 h4 => fpo_obj_simple path field l ty h1 h2 h3 h4,
    fun l h1 h2 h3 => fpo_obj_fold path field l h1 h2 h3,
    fun l h1 h2 h3 => fpo_arr_fold path field l h1 h2 h3⟩

/-- Witness for C7: wrapper recursion, properties stop and leaf marker on
concrete definitions, with the underscore-joined composite key. -/
theorem find_properties_object_cases_witness :
    find_properties_object ["root"] "f"
      (.obj [("items", .obj [("properties", .obj [("a", .null)])])]) =
      find_properties_object ["root"] "f" (.obj [("properties", .obj [("a", .null)])]) ∧
    find_properties_object ["root"] "f" (.obj [("properties", .obj [("a", .null)])]) =
      .ok [("root_f", some (.obj [("a", .null)]))] ∧
    find_properties_object ["root"] "f" (.obj [("type", .str "integer")]) =
      .ok [("root_f", none)] := by
  have h := find_properties_object_cases ["root"] "f"
  exact ⟨h.2.2.2.1 _ _ rfl, h.2.2.2.2.1 _ _ rfl rfl, h.2.2.2.2.2.1 _ _ rfl rfl rfl rfl⟩

/-- The log lines Python prints while the `find_children_streams` loop
examines one field.  The loop body contains no `print` call in any branch —
the internal-metadata branch and the `is_combining_node` branch are bare
`pass` statements (the latter with only a TODO comment), and the remaining
branches build children without logging — so every branch contributes the
empty list. -/
def children_for_field_notices (field : String) (definition : JValue) : List String :=
  if is_airbyte_column field then []
  else if is_combining_node definition then []
  else []

/-- Counterexample to C8 as stated: on a concrete `oneOf` field, child
discovery spawns nothing and runs on non-fatally, but it emits no
"unsupported construct" notice — the composition branch is a silent
`pass`. -/
theorem combining_field_silent_counterexample :
    is_combining_node (.obj [("oneOf", .arr [])]) = true ∧
    children_for_field idNT parent_stream "choice" (.obj [("oneOf", .arr [])]) = .ok [] ∧
    children_for_field_notices "choice" (.obj [("oneOf", .arr [])]) = [] :=
  ⟨rfl, rfl, rfl⟩

/-- C8 (amended): a schema-composition (`oneOf`/`anyOf`/`allOf`) field is
skipped silently by child discovery: no child is spawned, no notice is
logged, and no error is raised. -/
theorem combining_fields_skipped_silently (nt : NameTransformer) (p : StreamProcessor)
    (field : String) (definition : JValue)
    (h : is_combining_node definition = true) :
    children_for_field nt p field definition = .ok [] ∧
    children_for_field_notices field definition = [] := by
  constructor
  · rcases Bool.eq_false_or_eq_true (is_airbyte_column field) with hair | hair
    · simp [children_for_field, hair, h]
    · simp [children_for_field, hair, h]
  · simp only [children_for_field_notices, ite_self]

/-- Witness for C8: a concrete `anyOf` field spawns nothing and logs
nothing. -/
theorem combining_fields_skipped_silently_witness :
    is_combining_node (.obj [("anyOf", .arr [.obj [("type", .str "string")]])]) = true ∧
    children_for_field idNT parent_stream "alt"
      (.obj [("anyOf", .arr [.obj [("type", .str "string")]])]) = .ok [] ∧
    children_for_field_notices "alt"
      (.obj [("anyOf", .arr [.obj [("type", .str "string")]])]) = [] := by
  have h := combining_fields_skipped_silently idNT parent_stream "alt"
    (.obj [("anyOf", .arr [.obj [("type", .str "string")]])]) rfl
  exact ⟨rfl, h.1, h.2⟩

/-- C9: every node with a parent gets a tail clause filtering null values of
its normalized field column (with a cross-join clause exactly for nested
arrays); a root node gets neither tail clause nor unnesting prefix; and the
unnest-CTE prefix is emitted exactly when the node has a parent and is a
nested array. -/
theorem unnesting_clause_shape (nt : NameTransformer) (p : StreamProcessor)
    (from_table : String) :
    ((p.generate_json_parsing_model nt from_table).unnesting_after_query =
        p.unnesting_after_query nt ∧
      (p.generate_json_parsing_model nt from_table).unnesting_before_query =
        p.unnesting_before_query nt) ∧
    (∀ parent_name, p.parent = some parent_name →
      p.unnesting_after_query nt =
        "\n" ++
        (if p.is_nested_array then
          jinja_call ("cross_join_unnest(\x27" ++ nt.normalizeTableName parent_name ++
            "\x27, " ++ nt.normalizeColumnName p.stream_name true ++ ")")
        else "") ++
        "\nwhere " ++ nt.normalizeColumnName p.stream_name false ++ " is not null") ∧
    (p.parent = none →
      p.unnesting_after_query nt = "" ∧ p.unnesting_before_query nt = "") ∧
    (p.unnesting_before_query nt ≠ "" ↔ p.parent ≠ none ∧ p.is_nested_array = true) := by
  refine ⟨⟨rfl, rfl⟩, fun parent_name hp => ?_, fun hp => ⟨?_, ?_⟩, ?_, ?_⟩
  · simp only [StreamProcessor.unnesting_after_query, hp]
  · simp only [StreamProcessor.unnesting_after_query, hp]
  · simp only [StreamProcessor.unnesting_before_query, hp]
  · intro hne
    rcases hp : p.parent with _ | parent_name
    · exact absurd (by simp only [StreamProcessor.unnesting_before_query, hp]) hne
    · refine ⟨by simp [hp], ?_⟩
      rcases Bool.eq_false_or_eq_true p.is_nested_array with hnest | hnest
      · exact hnest
      · exact absurd (by simp only [StreamProcessor.unnesting_before_query, hp, hnest,
          Bool.false_eq_true, if_false]) hne
  · rintro ⟨hpar, hnest⟩
    rcases hp : p.parent with _ | parent_name
    · exact absurd hp hpar
    · simp only [StreamProcessor.unnesting_before_query, hp, hnest, if_true]
      exact jinja_call_ne_empty _

/-- Witness for C9: the nested-array child carries the null-filter tail and a
non-empty unnesting prefix; the root carries neither. -/
theorem unnesting_clause_shape_witness :
    child_stream.unnesting_after_query idNT =
      "\n" ++
      (if child_stream.is_nested_array then
        jinja_call ("cross_join_unnest(\x27" ++ idNT.normalizeTableName "users" ++
          "\x27, " ++ idNT.normalizeColumnName "addresses" true ++ ")")
      else "") ++
      "\nwhere " ++ idNT.normalizeColumnName "addresses" false ++ " is not null" ∧
    parent_stream.unnesting_after_query idNT = "" ∧
    parent_stream.unnesting_before_query idNT = "" ∧
    child_stream.unnesting_before_query idNT ≠ "" := by
  have h1 := (unnesting_clause_shape idNT child_stream "t").2.1 "users" rfl
  have h2 := (unnesting_clause_shape idNT parent_stream "t").2.2.1 rfl
  have h3 := (unnesting_clause_shape idNT child_stream "t").2.2.2.mpr
    ⟨fun hc => Option.noConfusion hc, rfl⟩
  exact ⟨h1, h2.1, h2.2, h3⟩

/-- C10: an array field whose `items` definition is a recognized leaf scalar
spawns exactly one nested-array child carrying the leaf marker (`None`
properties); processing that child is a non-fatal skip emitting no artifacts
and registering no names. -/
theorem scalar_array_leaf_child (nt : NameTransformer) (p : StreamProcessor)
    (field : String) (l m : List (String × JValue)) (ty lty : JValue)
    (hair : is_airbyte_column field = false)
    (hcomb : is_combining_node (.obj l) = false)
    (hty : getKeyL l ("type") = some ty)
    (hobj : is_object ty = false)
    (harr : is_array ty = true)
    (hits : getKeyL l ("items") = some (.obj m))
    (hm1 : getKeyL m ("items") = none)
    (hm2 : getKeyL m ("properties") = none)
    (hm3 : getKeyL m ("type") = some lty)
    (hm4 : is_simple_property lty = true) :
    children_for_field nt p field (.obj l) =
      .ok [StreamProcessor.initFromParent p field
        ("unnested_column_value(" ++ nt.normalizeColumnName field true ++ ")") none true] ∧
    (∀ from_table ctx,
      (StreamProcessor.initFromParent p field
        ("unnested_column_value(" ++ nt.normalizeColumnName field true ++ ")")
        none true).process nt from_table ctx = .ok (none, ctx, [])) := by
  constructor
  · have hfpo := fpo_obj_simple [] field m lty hm1 hm2 hm3 hm4
    rw [children_for_field]
    simp [hair, hcomb, getKey, hty, hobj, harr, hasKey, hits, hfpo]
  · intro from_table ctx
    rfl

/-- Witness for C10: the concrete `tags` array-of-strings field spawns one
leaf-marker child whose processing is a skip. -/
theorem scalar_array_leaf_child_witness :
    children_for_field idNT parent_stream "tags"
      (.obj [("type", .str "array"), ("items", .obj [("type", .str "string")])]) =
      .ok [StreamProcessor.initFromParent parent_stream "tags"
        ("unnested_column_value(tags)") none true] ∧
    (StreamProcessor.initFromParent parent_stream "tags"
      ("unnested_column_value(tags)") none true).process idNT "src" ["users"] =
      .ok (none, ["users"], []) := by
  have h := scalar_array_leaf_child idNT parent_stream "tags"
    [("type", .str "array"), ("items", .obj [("type", .str "string")])]
    [("type", .str "string")] (.str "array") (.str "string")
    rfl rfl rfl rfl rfl rfl rfl rfl rfl rfl
  exact ⟨h.1, h.2 "src" ["users"]⟩
